import Mathlib

/-!
Verification of the dmbridge migration engine against its specification.

The definitions below are a shallow embedding of the TypeScript sources:

* `DatabaseColumn`, `DatabaseTable` — src/src/types/database.ts
* `MigrationOptions`, `MigrationTable`, `MigrationConfig`, `MigrationError`,
  `MigrationProgress`, the status string union — src/src/types/migration.ts
* `createMigrationConfig`, `createMigrationTables`,
  `initializeMigrationProgress`, `runMigration` — the mock migration engine
  variant of migrationUtils (src/unnamed/part_007); `createMigrationTables`
  is identical in src/src/utils/migrationUtils.ts.
* `createMigrationTables_v006` — the variant in src/unnamed/part_006, which
  differs only in the destination-table name it assigns.

Status values are TypeScript string-literal union members, so they are
embedded as `String`s.  Effectful calls made by `runMigration` are made
explicit as an oracle (`RunEnv`): `Math.random() < 0.05` at table `i`,
row offset `r` becomes `failAt i r`, and `new Date()` observed at that
iteration becomes `now i r` (in seconds; the source takes milliseconds and
divides by 1000 — we keep the already-divided value, which is the only form
the code compares).  `onProgress` calls are recorded in an `emitted` trace.
-/

namespace DMBridge

/-- Column descriptor, from `DatabaseColumn` in src/src/types/database.ts. -/
structure DatabaseColumn where
  name : String
  type : String
  nullable : Bool
  isPrimaryKey : Bool
  selected : Bool
deriving Repr, DecidableEq

/-- Table descriptor, from `DatabaseTable` in src/src/types/database.ts. -/
structure DatabaseTable where
  name : String
  schema : Option String
  rowCount : Option Nat
  size : Option Nat
  columns : List DatabaseColumn
  selected : Bool
deriving Repr, DecidableEq

/-- One table-to-table mapping, from `MigrationTable` in
src/src/types/migration.ts. -/
structure MigrationTable where
  name : String
  schema : Option String
  selectedColumns : List String
  destinationTable : String
  transformations : Option (List (String × String)) := none
deriving Repr, DecidableEq

/-- Run options, from `MigrationOptions` in src/src/types/migration.ts. -/
structure MigrationOptions where
  truncateBeforeInsert : Bool
  batchSize : Nat
  skipErrors : Bool
  validateBeforeMigration : Bool
deriving Repr, DecidableEq

/-- The members of the `MigrationStatus` string-literal union declared at
src/src/types/migration.ts lines 27-34. -/
def migrationStatusValues : List String :=
  ["draft", "validating", "pending", "in_progress", "completed", "failed",
   "canceled"]

/-- Migration configuration, from `MigrationConfig` in
src/src/types/migration.ts.  `status` is one of the strings of the
`MigrationStatus` union. -/
structure MigrationConfig where
  id : String
  name : String
  sourceConnectionId : String
  destinationConnectionId : String
  selectedTables : List MigrationTable
  createdAt : ℚ
  status : String
  options : MigrationOptions
deriving Repr, DecidableEq

/-- Error record, from `MigrationError` in src/src/types/migration.ts. -/
structure MigrationError where
  table : String
  row : Option Nat
  message : String
  timestamp : ℚ
deriving Repr, DecidableEq

/-- Progress ledger, from `MigrationProgress` in src/src/types/migration.ts.
Times are rationals (seconds). -/
structure MigrationProgress where
  migrationId : String
  startTime : ℚ
  endTime : Option ℚ
  currentTable : Option String
  processedTables : Nat
  totalTables : Nat
  processedRows : Nat
  totalRows : Nat
  currentTableProgress : ℚ
  overallProgress : ℚ
  estimatedTimeRemaining : ℚ
  errors : List MigrationError
  status : String
deriving Repr, DecidableEq

/-- The caller-supplied partial options object (`Partial<MigrationOptions>`):
each field may be absent, in which case `createMigrationConfig` substitutes
its documented default. -/
structure MigrationOptionsOverride where
  truncateBeforeInsert : Option Bool := none
  batchSize : Option Nat := none
  skipErrors : Option Bool := none
  validateBeforeMigration : Option Bool := none
deriving Repr, DecidableEq

/-- `createMigrationConfig` from src/unnamed/part_007 lines 13-35 (the
variant at src/src/utils/migrationUtils.ts lines 13-36 is identical except
for a batchSize default of 1000000 and a forced `useCsvExtraction` flag).
`uuidv4()` and `new Date()` are external calls, passed in as `id` and
`createdAt`.  The source performs no validation whatsoever: it always
returns a config with the given tables and status "draft". -/
def createMigrationConfig (id name sourceConnectionId destinationConnectionId :
    String) (selectedTables : List MigrationTable) (createdAt : ℚ)
    (options : MigrationOptionsOverride) : MigrationConfig :=
  { id := id
    name := name
    sourceConnectionId := sourceConnectionId
    destinationConnectionId := destinationConnectionId
    selectedTables := selectedTables
    createdAt := createdAt
    status := "draft"
    options :=
      { truncateBeforeInsert := options.truncateBeforeInsert.getD false
        batchSize := options.batchSize.getD 1000
        skipErrors := options.skipErrors.getD false
        validateBeforeMigration := options.validateBeforeMigration.getD true } }

/-- `createMigrationTables` from src/src/utils/migrationUtils.ts lines 39-52
(identical at src/unnamed/part_007 lines 38-51): keep the selected tables in
order, project each to its selected column names, and reuse the source table
name as the destination name. -/
def createMigrationTables (tables : List DatabaseTable) :
    List MigrationTable :=
  (tables.filter (fun table => table.selected)).map (fun table =>
    { name := table.name
      schema := table.schema
      selectedColumns :=
        (table.columns.filter (fun column => column.selected)).map
          (fun column => column.name)
      destinationTable := table.name })

/-- `createMigrationTables` from src/unnamed/part_006 lines 39-52: same
filtering and projection, but the destination table is the source name with
a `_migrated` suffix. -/
def createMigrationTables_v006 (tables : List DatabaseTable) :
    List MigrationTable :=
  (tables.filter (fun table => table.selected)).map (fun table =>
    { name := table.name
      schema := table.schema
      selectedColumns :=
        (table.columns.filter (fun column => column.selected)).map
          (fun column => column.name)
      destinationTable := table.name ++ "_migrated" })

/-- `initializeMigrationProgress` from src/unnamed/part_007 lines 54-71.
`new Date()` is passed in as `startTime`. -/
def initializeMigrationProgress (migrationId : String) (startTime : ℚ)
    (tables : List MigrationTable) : MigrationProgress :=
  { migrationId := migrationId
    startTime := startTime
    endTime := none
    currentTable := none
    processedTables := 0
    totalTables := tables.length
    processedRows := 0
    totalRows := 0
    currentTableProgress := 0
    overallProgress := 0
    estimatedTimeRemaining := 0
    errors := []
    status := "pending" }

/-- Oracle for the effectful calls inside `runMigration`:
`failAt i r` is the draw `Math.random() < 0.05` in the chunk iteration of
table `i` at row offset `r`; `now i r` is the clock observed during that
iteration (the source calls `new Date()` up to three times within one
iteration, microseconds apart; they are modelled as one instant); `endNow`
is the clock at the terminal transition. -/
structure RunEnv where
  failAt : Nat → Nat → Bool
  now : Nat → Nat → ℚ
  endNow : ℚ

/-- Engine state: the mutable `progress` record plus the trace of
`onProgress(progress)` calls in order. -/
structure RunState where
  progress : MigrationProgress
  emitted : List MigrationProgress
deriving Repr, DecidableEq

/-- Mock per-table row count, src/unnamed/part_007 line 114
(`const totalRowsInTable = 5000`). -/
def totalRowsInTable : Nat := 5000

/-- The error object built at src/unnamed/part_007 lines 120-125. -/
def mkChunkError (env : RunEnv) (i row : Nat) (table : MigrationTable) :
    MigrationError :=
  { table := table.name
    row := some row
    message := "Error processing row " ++ toString row ++
      ": Mock error message"
    timestamp := env.now i row }

/-- The progress update of one successful chunk iteration,
src/unnamed/part_007 lines 137-150. -/
def chunkUpdate (env : RunEnv) (i row : Nat) (p : MigrationProgress) :
    MigrationProgress :=
  let rowsProcessed : Nat := min (row + 100) totalRowsInTable
  let processedRows : Nat := p.processedRows + 100
  let elapsedSeconds : ℚ := env.now i row - p.startTime
  let percentComplete : ℚ := (processedRows : ℚ) / (p.totalRows : ℚ)
  { p with
    processedRows := processedRows
    currentTableProgress :=
      ((rowsProcessed : ℚ) / (totalRowsInTable : ℚ)) * 100
    overallProgress := ((processedRows : ℚ) / (p.totalRows : ℚ)) * 100
    estimatedTimeRemaining :=
      if 0 < percentComplete then
        max 0 (elapsedSeconds / percentComplete - elapsedSeconds)
      else p.estimatedTimeRemaining }

/-- One iteration of the inner row loop, src/unnamed/part_007 lines 115-153.
`Except.error` is the early `return progress` of the abort path.  Note the
source guards the whole failure simulation by
`Math.random() < 0.05 && !config.options.skipErrors` and only then checks
`!config.options.skipErrors` again, so the record-and-skip path after the
error push is dead code. -/
def chunkIter (cfg : MigrationConfig) (env : RunEnv) (i : Nat)
    (table : MigrationTable) (row : Nat) (st : RunState) :
    Except RunState RunState :=
  let branch : Except RunState RunState :=
    if env.failAt i row && !cfg.options.skipErrors then
      let p := { st.progress with
        errors := st.progress.errors ++ [mkChunkError env i row table] }
      if !cfg.options.skipErrors then
        let pf := { p with
          status := "failed"
          endTime := some (env.now i row) }
        Except.error { progress := pf, emitted := st.emitted ++ [pf] }
      else Except.ok { st with progress := p }
    else Except.ok st
  match branch with
  | Except.error q => Except.error q
  | Except.ok st =>
    let p := chunkUpdate env i row st.progress
    Except.ok { progress := p, emitted := st.emitted ++ [p] }

/-- Row offsets visited by `for (let row = 0; row < totalRowsInTable;
row += 100)` with `totalRowsInTable = 5000`: exactly 0, 100, ..., 4900. -/
def tableChunkRows : List Nat :=
  (List.range (totalRowsInTable / 100)).map (fun k => 100 * k)

/-- The inner row loop of table `i`, folded over its row offsets with the
abort path short-circuiting. -/
def chunkLoop (cfg : MigrationConfig) (env : RunEnv) (i : Nat)
    (table : MigrationTable) (rows : List Nat) (st : RunState) :
    Except RunState RunState :=
  rows.foldl (fun acc row => acc.bind (chunkIter cfg env i table row))
    (Except.ok st)

/-- One iteration of the per-table loop, src/unnamed/part_007 lines
107-156: set `currentTable`, reset `currentTableProgress`, emit, run the
row loop, then increment `processedTables` (no emission there). -/
def processTable (cfg : MigrationConfig) (env : RunEnv) (i : Nat)
    (table : MigrationTable) (st : RunState) : Except RunState RunState :=
  let p := { st.progress with
    currentTable := some table.name
    currentTableProgress := 0 }
  let st : RunState := { progress := p, emitted := st.emitted ++ [p] }
  (chunkLoop cfg env i table tableChunkRows st).map (fun st =>
    { st with progress :=
      { st.progress with processedTables := st.progress.processedTables + 1 } })

/-- The per-table loop `for (let i = 0; i < config.selectedTables.length;
i++)`, with `i0` the index of the first table of `tables`. -/
def runTables (cfg : MigrationConfig) (env : RunEnv) :
    Nat → List MigrationTable → RunState → Except RunState RunState
  | _, [], st => Except.ok st
  | i0, table :: rest, st =>
    (processTable cfg env i0 table st).bind (runTables cfg env (i0 + 1) rest)

/-- `runMigration` from src/unnamed/part_007 lines 89-166.  The result
carries the returned `progress` and the full `onProgress` trace. -/
def runMigration (cfg : MigrationConfig) (startTime : ℚ) (env : RunEnv) :
    RunState :=
  let p0 := initializeMigrationProgress cfg.id startTime cfg.selectedTables
  let p1 := { p0 with
    status := "in_progress"
    totalRows := cfg.selectedTables.foldl (fun sum _ => sum + 5000) 0 }
  let st : RunState := { progress := p1, emitted := [p1] }
  let st :=
    if cfg.options.validateBeforeMigration then
      let p := { st.progress with status := "validating" }
      { progress := p, emitted := st.emitted ++ [p] }
    else st
  match runTables cfg env 0 cfg.selectedTables st with
  | Except.error st => st
  | Except.ok st =>
    let p := { st.progress with
      status := "completed"
      endTime := some env.endNow
      overallProgress := 100
      estimatedTimeRemaining := 0 }
    { progress := p, emitted := st.emitted ++ [p] }

/-- Snapshots that begin a table: `currentTableProgress` just reset to 0
with a table selected.  Used to read the table processing order off an
emission trace. -/
def tableStarts (l : List MigrationProgress) : List String :=
  (l.filter (fun p =>
    decide (p.currentTableProgress = 0) && p.currentTable.isSome)).filterMap
    (fun p => p.currentTable)

/-- The progress record produced by the abort branch of a failing chunk
iteration (src/unnamed/part_007 lines 120-133). -/
def failSnapshot (env : RunEnv) (i row : Nat) (table : MigrationTable)
    (p : MigrationProgress) : MigrationProgress :=
  { p with
    errors := p.errors ++ [mkChunkError env i row table]
    status := "failed"
    endTime := some (env.now i row) }

/-- The state of `runMigration` just before the per-table loop:
initialisation, the `in_progress` transition with the mock `totalRows`
sum, the first emission, and the optional `validating` transition with
its emission. -/
def startState (cfg : MigrationConfig) (startTime : ℚ) : RunState :=
  let p0 := initializeMigrationProgress cfg.id startTime cfg.selectedTables
  let p1 := { p0 with
    status := "in_progress"
    totalRows := cfg.selectedTables.foldl (fun sum _ => sum + 5000) 0 }
  let st : RunState := { progress := p1, emitted := [p1] }
  if cfg.options.validateBeforeMigration then
    let p := { st.progress with status := "validating" }
    { progress := p, emitted := st.emitted ++ [p] }
  else st

/-- Collapse an `Except` whose both sides carry a `RunState` into the
carried state (the engine returns `progress` on both the abort path and
the completion path). -/
def stateOf : Except RunState RunState → RunState
  | Except.ok st => st
  | Except.error st => st

/-- Invariant: the status field and every emitted snapshot's status field
are members of the `MigrationStatus` union. -/
def StatusInv (st : RunState) : Prop :=
  st.progress.status ∈ migrationStatusValues ∧
  ∀ q ∈ st.emitted, q.status ∈ migrationStatusValues

/-- A column fixture for concrete evaluations. -/
def exDbCol (nm : String) (sel : Bool) : DatabaseColumn :=
  { name := nm, type := "int", nullable := false, isPrimaryKey := false,
    selected := sel }

/-- A selected table fixture with a partially selected column list. -/
def exDbTable1 : DatabaseTable :=
  { name := "t1", schema := some "s", rowCount := none, size := none,
    columns := [exDbCol "a" true, exDbCol "b" false, exDbCol "c" true],
    selected := true }

/-- An unselected table fixture. -/
def exDbTable2 : DatabaseTable :=
  { name := "t2", schema := none, rowCount := none, size := none,
    columns := [exDbCol "x" true], selected := false }

/-- A migration-unit fixture. -/
def exTable (nm : String) : MigrationTable :=
  { name := nm, schema := none, selectedColumns := ["c1"],
    destinationTable := nm }

/-- Options fixture. -/
def exOptions (skip : Bool) (batch : Nat) (validate : Bool) :
    MigrationOptions :=
  { truncateBeforeInsert := false, batchSize := batch, skipErrors := skip,
    validateBeforeMigration := validate }

/-- A two-table configuration with `skipErrors = false`,
`batchSize = 100`, pre-validation off. -/
def exConfig2 : MigrationConfig :=
  { id := "m1", name := "demo", sourceConnectionId := "s",
    destinationConnectionId := "d",
    selectedTables := [exTable "t1", exTable "t2"], createdAt := 0,
    status := "draft", options := exOptions false 100 false }

/-- A one-table configuration whose `batchSize` is 250. -/
def exConfigB250 : MigrationConfig :=
  { id := "m2", name := "demo", sourceConnectionId := "s",
    destinationConnectionId := "d", selectedTables := [exTable "t1"],
    createdAt := 0, status := "draft",
    options := exOptions false 250 false }

/-- A one-table configuration with `skipErrors = true`. -/
def exConfigSkip : MigrationConfig :=
  { id := "m3", name := "demo", sourceConnectionId := "s",
    destinationConnectionId := "d", selectedTables := [exTable "t1"],
    createdAt := 0, status := "draft",
    options := exOptions true 100 false }

/-- A configuration with zero units (empty `selectedTables`). -/
def exConfigEmpty : MigrationConfig :=
  { id := "m4", name := "demo", sourceConnectionId := "s",
    destinationConnectionId := "d", selectedTables := [], createdAt := 0,
    status := "draft", options := exOptions false 100 false }

/-- Oracle fixture: the failure draw never fires, the clock reads 0. -/
def exEnvNoFail : RunEnv :=
  { failAt := fun _ _ => false, now := fun _ _ => 0, endNow := 0 }

/-- Oracle fixture: the failure draw fires at every iteration. -/
def exEnvAllFail : RunEnv :=
  { failAt := fun _ _ => true, now := fun _ _ => 0, endNow := 0 }

/-- Oracle fixture: the failure draw fires exactly at table 1, row 200. -/
def exEnvFail : RunEnv :=
  { failAt := fun j s => j == 1 && s == 200, now := fun _ _ => 7,
    endNow := 9 }

/-- Oracle fixture: the failure draw fires exactly at table 0, row 300. -/
def exEnvFail0 : RunEnv :=
  { failAt := fun j s => j == 0 && s == 300, now := fun _ _ => 4,
    endNow := 9 }

/-- Clock fixture for the ETA formula: `now` reads 7. -/
def exEnv9 : RunEnv :=
  { failAt := fun _ _ => false, now := fun _ _ => 7, endNow := 0 }

/-- Ledger fixture for the ETA formula: 0 of 5000 rows processed,
`startTime = 2`. -/
def exProgress9 : MigrationProgress :=
  { migrationId := "m", startTime := 2, endTime := none,
    currentTable := none, processedTables := 0, totalTables := 1,
    processedRows := 0, totalRows := 5000, currentTableProgress := 0,
    overallProgress := 0, estimatedTimeRemaining := 0, errors := [],
    status := "in_progress" }

theorem bind_ok_eq (a : α) (f : α → Except ε β) :
    (Except.ok a : Except ε α).bind f = f a := rfl

theorem bind_error_eq (e : ε) (f : α → Except ε β) :
    (Except.error e : Except ε α).bind f = Except.error e := rfl

theorem foldl_bind_error {σ ε α : Type} (f : α → σ → Except ε σ)
    (l : List α) (e : ε) :
    l.foldl (fun acc x => acc.bind (f x)) (Except.error e) =
      Except.error e := by
  induction l with
  | nil => rfl
  | cons a l ih => simpa [List.foldl] using ih

theorem chunkLoop_nil (cfg : MigrationConfig) (env : RunEnv) (i : Nat)
    (tb : MigrationTable) (st : RunState) :
    chunkLoop cfg env i tb [] st = Except.ok st := rfl

theorem chunkLoop_append (cfg : MigrationConfig) (env : RunEnv) (i : Nat)
    (tb : MigrationTable) (A B : List Nat) (st : RunState) :
    chunkLoop cfg env i tb (A ++ B) st =
      match chunkLoop cfg env i tb A st with
      | Except.ok st1 => chunkLoop cfg env i tb B st1
      | Except.error e => Except.error e := by
  unfold chunkLoop
  rw [List.foldl_append]
  cases h : (A.foldl (fun acc row => acc.bind (chunkIter cfg env i tb row))
      (Except.ok st)) with
  | ok st1 => rfl
  | error e => exact foldl_bind_error _ B e

theorem chunkLoop_cons (cfg : MigrationConfig) (env : RunEnv) (i : Nat)
    (tb : MigrationTable) (a : Nat) (rows : List Nat) (st : RunState) :
    chunkLoop cfg env i tb (a :: rows) st =
      match chunkIter cfg env i tb a st with
      | Except.ok st1 => chunkLoop cfg env i tb rows st1
      | Except.error e => Except.error e := by
  unfold chunkLoop
  simp only [List.foldl_cons, bind_ok_eq]
  cases h : chunkIter cfg env i tb a st with
  | ok st1 => rfl
  | error e => exact foldl_bind_error _ rows e

theorem chunkIter_ok (cfg : MigrationConfig) (env : RunEnv) (i : Nat)
    (tb : MigrationTable) (row : Nat) (st : RunState)
    (h : env.failAt i row = false ∨ cfg.options.skipErrors = true) :
    chunkIter cfg env i tb row st =
      Except.ok
        { progress := chunkUpdate env i row st.progress
          emitted := st.emitted ++ [chunkUpdate env i row st.progress] } := by
  have hg : (env.failAt i row && !cfg.options.skipErrors) = false := by
    rcases h with h | h <;> simp [h]
  simp [chunkIter, hg]

theorem chunkIter_fail (cfg : MigrationConfig) (env : RunEnv) (i : Nat)
    (tb : MigrationTable) (row : Nat) (st : RunState)
    (h1 : env.failAt i row = true) (h2 : cfg.options.skipErrors = false) :
    chunkIter cfg env i tb row st =
      Except.error
        { progress := failSnapshot env i row tb st.progress
          emitted := st.emitted ++ [failSnapshot env i row tb st.progress] } := by
  simp [chunkIter, h1, h2, failSnapshot]

theorem chunkUpdate_processedRows (env : RunEnv) (i row : Nat)
    (p : MigrationProgress) :
    (chunkUpdate env i row p).processedRows = p.processedRows + 100 := rfl

theorem chunkUpdate_errors (env : RunEnv) (i row : Nat)
    (p : MigrationProgress) :
    (chunkUpdate env i row p).errors = p.errors := rfl

theorem chunkUpdate_status (env : RunEnv) (i row : Nat)
    (p : MigrationProgress) :
    (chunkUpdate env i row p).status = p.status := rfl

theorem chunkUpdate_currentTable (env : RunEnv) (i row : Nat)
    (p : MigrationProgress) :
    (chunkUpdate env i row p).currentTable = p.currentTable := rfl

theorem chunkUpdate_totalRows (env : RunEnv) (i row : Nat)
    (p : MigrationProgress) :
    (chunkUpdate env i row p).totalRows = p.totalRows := rfl

theorem chunkUpdate_totalTables (env : RunEnv) (i row : Nat)
    (p : MigrationProgress) :
    (chunkUpdate env i row p).totalTables = p.totalTables := rfl

theorem chunkUpdate_processedTables (env : RunEnv) (i row : Nat)
    (p : MigrationProgress) :
    (chunkUpdate env i row p).processedTables = p.processedTables := rfl

theorem chunkUpdate_startTime (env : RunEnv) (i row : Nat)
    (p : MigrationProgress) :
    (chunkUpdate env i row p).startTime = p.startTime := rfl

theorem chunkUpdate_endTime (env : RunEnv) (i row : Nat)
    (p : MigrationProgress) :
    (chunkUpdate env i row p).endTime = p.endTime := rfl

theorem chunkUpdate_migrationId (env : RunEnv) (i row : Nat)
    (p : MigrationProgress) :
    (chunkUpdate env i row p).migrationId = p.migrationId := rfl

theorem chunkUpdate_ctp (env : RunEnv) (i row : Nat)
    (p : MigrationProgress) :
    (chunkUpdate env i row p).currentTableProgress =
      ((min (row + 100) totalRowsInTable : ℕ) : ℚ) /
        ((totalRowsInTable : ℕ) : ℚ) * 100 := rfl

theorem chunkUpdate_overall (env : RunEnv) (i row : Nat)
    (p : MigrationProgress) :
    (chunkUpdate env i row p).overallProgress =
      ((p.processedRows + 100 : ℕ) : ℚ) / (p.totalRows : ℚ) * 100 := rfl

theorem chunkUpdate_ctp_ne_zero (env : RunEnv) (i row : Nat)
    (p : MigrationProgress) :
    (chunkUpdate env i row p).currentTableProgress ≠ 0 := by
  rw [chunkUpdate_ctp]
  have h1 : 0 < min (row + 100) totalRowsInTable := by
    simp [totalRowsInTable]
  have h2 : (0 : ℚ) < ((min (row + 100) totalRowsInTable : ℕ) : ℚ) := by
    exact_mod_cast h1
  have h3 : (0 : ℚ) < ((totalRowsInTable : ℕ) : ℚ) := by
    simp [totalRowsInTable]
  positivity

theorem tableStarts_nil : tableStarts [] = [] := rfl

theorem tableStarts_append (a b : List MigrationProgress) :
    tableStarts (a ++ b) = tableStarts a ++ tableStarts b := by
  simp [tableStarts, List.filter_append, List.filterMap_append]

theorem tableStarts_chunk (q : MigrationProgress)
    (h : q.currentTableProgress ≠ 0) : tableStarts [q] = [] := by
  simp [tableStarts, h]

theorem tableStarts_noTable (q : MigrationProgress)
    (h : q.currentTable = none) : tableStarts [q] = [] := by
  simp [tableStarts, h]

theorem tableStarts_start (q : MigrationProgress) (nm : String)
    (h0 : q.currentTableProgress = 0) (h1 : q.currentTable = some nm) :
    tableStarts [q] = [nm] := by
  simp [tableStarts, h0, h1]

/-- Running the first `k` chunk iterations of table `i` when none of them
hits the abort branch: the loop succeeds, adds `100` rows per iteration,
touches no other ledger field, and every emitted snapshot is a chunk
snapshot (visible `currentTableProgress > 0`), never a table start. -/
theorem chunkLoop_clean (cfg : MigrationConfig) (env : RunEnv) (i : Nat)
    (tb : MigrationTable) :
    ∀ (k : Nat), k ≤ 50 → ∀ (st : RunState),
    (∀ j, j < k →
      env.failAt i (100 * j) = false ∨ cfg.options.skipErrors = true) →
    ∃ st', chunkLoop cfg env i tb ((List.range k).map (fun j => 100 * j)) st
        = Except.ok st' ∧
      st'.progress.processedRows = st.progress.processedRows + 100 * k ∧
      st'.progress.errors = st.progress.errors ∧
      st'.progress.status = st.progress.status ∧
      st'.progress.currentTable = st.progress.currentTable ∧
      st'.progress.totalRows = st.progress.totalRows ∧
      st'.progress.totalTables = st.progress.totalTables ∧
      st'.progress.processedTables = st.progress.processedTables ∧
      st'.progress.startTime = st.progress.startTime ∧
      st'.progress.endTime = st.progress.endTime ∧
      st'.progress.migrationId = st.progress.migrationId ∧
      (k = 0 → st' = st) ∧
      (0 < k →
        st'.progress.currentTableProgress =
          ((100 * k : ℕ) : ℚ) / 5000 * 100 ∧
        st'.progress.overallProgress =
          ((st.progress.processedRows + 100 * k : ℕ) : ℚ) /
            (st.progress.totalRows : ℚ) * 100) ∧
      ∃ S, st'.emitted = st.emitted ++ S ∧ tableStarts S = [] := by
  intro k
  induction k with
  | zero =>
    intro _ st _
    exact ⟨st, rfl, by simp, rfl, rfl, rfl, rfl, rfl, rfl, rfl, rfl, rfl,
      fun _ => rfl, fun h => absurd h (by omega), ⟨[], by simp, rfl⟩⟩
  | succ k ih =>
    intro hk st h
    obtain ⟨st1, heq, hpr, herr, hstat, hct, htr, htt, hpt, hstart, hend,
        hmid, _, _, S1, hem, hts⟩ :=
      ih (by omega) st (fun j hj => h j (by omega))
    have hclean : env.failAt i (100 * k) = false ∨
        cfg.options.skipErrors = true := h k (by omega)
    have hstep := chunkIter_ok cfg env i tb (100 * k) st1 hclean
    have hsplit : (List.range (k + 1)).map (fun j => 100 * j)
        = ((List.range k).map (fun j => 100 * j)) ++ [100 * k] := by
      rw [List.range_succ, List.map_append]
      rfl
    have hrun : chunkLoop cfg env i tb
        ((List.range (k + 1)).map (fun j => 100 * j)) st =
        Except.ok
          { progress := chunkUpdate env i (100 * k) st1.progress
            emitted := st1.emitted ++
              [chunkUpdate env i (100 * k) st1.progress] } := by
      rw [hsplit, chunkLoop_append, heq]
      show chunkLoop cfg env i tb [100 * k] st1 = _
      rw [chunkLoop_cons, hstep]
      rfl
    refine ⟨_, hrun, ?_, ?_, ?_, ?_, ?_, ?_, ?_, ?_, ?_, ?_,
      fun h0 => absurd h0 (by omega), fun _ => ⟨?_, ?_⟩,
      ⟨S1 ++ [chunkUpdate env i (100 * k) st1.progress], ?_, ?_⟩⟩
    · rw [chunkUpdate_processedRows, hpr]; omega
    · rw [chunkUpdate_errors, herr]
    · rw [chunkUpdate_status, hstat]
    · rw [chunkUpdate_currentTable, hct]
    · rw [chunkUpdate_totalRows, htr]
    · rw [chunkUpdate_totalTables, htt]
    · rw [chunkUpdate_processedTables, hpt]
    · rw [chunkUpdate_startTime, hstart]
    · rw [chunkUpdate_endTime, hend]
    · rw [chunkUpdate_migrationId, hmid]
    · have hmin : min (100 * k + 100) totalRowsInTable = 100 * (k + 1) := by
        simp only [totalRowsInTable]
        omega
      rw [chunkUpdate_ctp, hmin]
      simp [totalRowsInTable]
    · have harith : st.progress.processedRows + 100 * k + 100 =
          st.progress.processedRows + 100 * (k + 1) := by omega
      rw [chunkUpdate_overall, hpr, htr, harith]
    · rw [hem, List.append_assoc]
    · rw [tableStarts_append, hts,
        tableStarts_chunk _ (chunkUpdate_ctp_ne_zero env i (100 * k)
          st1.progress)]
      rfl

theorem tableChunkRows_eq :
    tableChunkRows = (List.range 50).map (fun j => 100 * j) := rfl

/-- Processing one whole table without hitting the abort branch: 5000 rows
are added, `processedTables` is incremented once, the error list and run
status are untouched, and the appended emission segment contains exactly
one table-start snapshot, carrying this table's name. -/
theorem processTable_clean (cfg : MigrationConfig) (env : RunEnv) (i : Nat)
    (tb : MigrationTable) (st : RunState)
    (h : ∀ j, j < 50 →
      env.failAt i (100 * j) = false ∨ cfg.options.skipErrors = true) :
    ∃ st', processTable cfg env i tb st = Except.ok st' ∧
      st'.progress.processedRows = st.progress.processedRows + 5000 ∧
      st'.progress.processedTables = st.progress.processedTables + 1 ∧
      st'.progress.errors = st.progress.errors ∧
      st'.progress.status = st.progress.status ∧
      st'.progress.totalRows = st.progress.totalRows ∧
      st'.progress.totalTables = st.progress.totalTables ∧
      st'.progress.startTime = st.progress.startTime ∧
      st'.progress.endTime = st.progress.endTime ∧
      st'.progress.migrationId = st.progress.migrationId ∧
      st'.progress.currentTable = some tb.name ∧
      st'.progress.currentTableProgress = 100 ∧
      st'.progress.overallProgress =
        ((st.progress.processedRows + 5000 : ℕ) : ℚ) /
          (st.progress.totalRows : ℚ) * 100 ∧
      ∃ T, st'.emitted = st.emitted ++ T ∧ tableStarts T = [tb.name] := by
  obtain ⟨st1, heq, hpr, herr, hstat, hct, htr, htt, hpt, hstart, hend,
      hmid, _, hpos, S1, hem, hts⟩ :=
    chunkLoop_clean cfg env i tb 50 (by omega)
      { progress := { st.progress with
          currentTable := some tb.name
          currentTableProgress := 0 }
        emitted := st.emitted ++ [{ st.progress with
          currentTable := some tb.name
          currentTableProgress := 0 }] } h
  obtain ⟨hctp1, hov1⟩ := hpos (by omega)
  have heqP : processTable cfg env i tb st = Except.ok
      { progress := { st1.progress with
          processedTables := st1.progress.processedTables + 1 }
        emitted := st1.emitted } := by
    have h2 := congrArg (Except.map (fun s : RunState =>
      { s with progress := { s.progress with
          processedTables := s.progress.processedTables + 1 } })) heq
    exact h2
  refine ⟨_, heqP, ?_, ?_, ?_, ?_, ?_, ?_, ?_, ?_, ?_, ?_, ?_, ?_,
    ⟨{ st.progress with
        currentTable := some tb.name
        currentTableProgress := 0 } :: S1, ?_, ?_⟩⟩
  · show st1.progress.processedRows = _
    rw [hpr]
  · show st1.progress.processedTables + 1 = _
    rw [hpt]
  · exact herr
  · exact hstat
  · exact htr
  · exact htt
  · exact hstart
  · exact hend
  · exact hmid
  · exact hct
  · show st1.progress.currentTableProgress = 100
    rw [hctp1]
    norm_num
  · show st1.progress.overallProgress = _
    rw [hov1]
  · show st1.emitted = _
    rw [hem, List.append_assoc]
    rfl
  · rw [show ({ st.progress with
        currentTable := some tb.name
        currentTableProgress := 0 } :: S1 : List MigrationProgress) =
      [{ st.progress with
          currentTable := some tb.name
          currentTableProgress := 0 }] ++ S1 from rfl,
      tableStarts_append, hts, tableStarts_start _ tb.name rfl rfl]
    rfl

theorem foldl_sum5000 (L : List MigrationTable) :
    L.foldl (fun sum _ => sum + 5000) 0 = 5000 * L.length := by
  have aux : ∀ (M : List MigrationTable) (a : Nat),
      M.foldl (fun sum _ => sum + 5000) a = a + 5000 * M.length := by
    intro M
    induction M with
    | nil => intro a; simp
    | cons x M ih =>
      intro a
      simp only [List.foldl_cons, List.length_cons, ih]
      omega
  simpa using aux L 0

/-- Running the per-table loop over a table list without ever hitting the
abort branch: every table is processed, counters advance accordingly, and
the table-start snapshots of the appended emission segment name the tables
in the given order. -/
theorem runTables_clean (cfg : MigrationConfig) (env : RunEnv) :
    ∀ (L : List MigrationTable) (i0 : Nat) (st : RunState),
    (∀ k, k < L.length → ∀ j, j < 50 →
      env.failAt (i0 + k) (100 * j) = false ∨
        cfg.options.skipErrors = true) →
    ∃ st', runTables cfg env i0 L st = Except.ok st' ∧
      st'.progress.processedRows =
        st.progress.processedRows + 5000 * L.length ∧
      st'.progress.processedTables =
        st.progress.processedTables + L.length ∧
      st'.progress.errors = st.progress.errors ∧
      st'.progress.status = st.progress.status ∧
      st'.progress.totalRows = st.progress.totalRows ∧
      st'.progress.totalTables = st.progress.totalTables ∧
      st'.progress.startTime = st.progress.startTime ∧
      st'.progress.endTime = st.progress.endTime ∧
      st'.progress.migrationId = st.progress.migrationId ∧
      (L = [] → st' = st) ∧
      (L ≠ [] →
        st'.progress.currentTableProgress = 100 ∧
        st'.progress.overallProgress =
          ((st.progress.processedRows + 5000 * L.length : ℕ) : ℚ) /
            (st.progress.totalRows : ℚ) * 100) ∧
      ∃ T, st'.emitted = st.emitted ++ T ∧
        tableStarts T = L.map (fun t => t.name) := by
  intro L
  induction L with
  | nil =>
    intro i0 st _
    exact ⟨st, rfl, by simp, by simp, rfl, rfl, rfl, rfl, rfl, rfl, rfl,
      fun _ => rfl, fun hne => absurd rfl hne, ⟨[], by simp, rfl⟩⟩
  | cons tb ts ih =>
    intro i0 st h
    obtain ⟨st1, heq1, hpr1, hpt1, herr1, hstat1, htr1, htt1, hstart1,
        hend1, hmid1, hct1, hctp1, hov1, T1, hem1, hts1⟩ :=
      processTable_clean cfg env i0 tb st (by
        have := h 0 (by simp)
        simpa using this)
    obtain ⟨st2, heq2, hpr2, hpt2, herr2, hstat2, htr2, htt2, hstart2,
        hend2, hmid2, hnil2, hpos2, T2, hem2, hts2⟩ :=
      ih (i0 + 1) st1 (by
        intro k hk j hj
        have := h (k + 1) (by simpa using Nat.succ_lt_succ hk) j hj
        rwa [show i0 + 1 + k = i0 + (k + 1) from by omega])
    have hrun : runTables cfg env i0 (tb :: ts) st = Except.ok st2 := by
      show (processTable cfg env i0 tb st).bind
        (runTables cfg env (i0 + 1) ts) = _
      rw [heq1, bind_ok_eq, heq2]
    refine ⟨st2, hrun, ?_, ?_, ?_, ?_, ?_, ?_, ?_, ?_, ?_,
      fun hc => absurd hc (by simp), fun _ => ?_, ⟨T1 ++ T2, ?_, ?_⟩⟩
    · rw [hpr2, hpr1, List.length_cons]; omega
    · rw [hpt2, hpt1, List.length_cons]; omega
    · rw [herr2, herr1]
    · rw [hstat2, hstat1]
    · rw [htr2, htr1]
    · rw [htt2, htt1]
    · rw [hstart2, hstart1]
    · rw [hend2, hend1]
    · rw [hmid2, hmid1]
    · by_cases hts0 : ts = []
      · subst hts0
        have hst2 : st2 = st1 := hnil2 rfl
        subst hst2
        refine ⟨hctp1, ?_⟩
        rw [hov1]
        norm_num
      · obtain ⟨hctp2, hov2⟩ := hpos2 hts0
        refine ⟨hctp2, ?_⟩
        rw [hov2, hpr1, htr1, List.length_cons]
        have : st.progress.processedRows + 5000 + 5000 * ts.length =
            st.progress.processedRows + 5000 * (ts.length + 1) := by omega
        rw [this]
    · rw [hem2, hem1, List.append_assoc]
    · rw [tableStarts_append, hts1, hts2, List.map_cons]
      rfl

theorem runMigration_as_match (cfg : MigrationConfig) (t : ℚ)
    (env : RunEnv) :
    runMigration cfg t env =
      match runTables cfg env 0 cfg.selectedTables (startState cfg t) with
      | Except.error st => st
      | Except.ok st =>
        { progress := { st.progress with
            status := "completed"
            endTime := some env.endNow
            overallProgress := 100
            estimatedTimeRemaining := 0 }
          emitted := st.emitted ++ [{ st.progress with
            status := "completed"
            endTime := some env.endNow
            overallProgress := 100
            estimatedTimeRemaining := 0 }] } := by
  unfold runMigration startState
  by_cases hv : cfg.options.validateBeforeMigration <;> simp [hv]

theorem startState_spec (cfg : MigrationConfig) (t : ℚ) :
    (startState cfg t).progress.processedRows = 0 ∧
    (startState cfg t).progress.processedTables = 0 ∧
    (startState cfg t).progress.totalRows =
      5000 * cfg.selectedTables.length ∧
    (startState cfg t).progress.totalTables = cfg.selectedTables.length ∧
    (startState cfg t).progress.errors = [] ∧
    (startState cfg t).progress.startTime = t ∧
    (startState cfg t).progress.endTime = none ∧
    (startState cfg t).progress.currentTable = none ∧
    (startState cfg t).progress.currentTableProgress = 0 ∧
    (startState cfg t).progress.overallProgress = 0 ∧
    (startState cfg t).progress.estimatedTimeRemaining = 0 ∧
    (startState cfg t).progress.migrationId = cfg.id ∧
    (startState cfg t).progress.status =
      (if cfg.options.validateBeforeMigration then "validating"
       else "in_progress") ∧
    tableStarts (startState cfg t).emitted = [] := by
  by_cases hv : cfg.options.validateBeforeMigration <;>
    simp [startState, initializeMigrationProgress, hv, foldl_sum5000,
      tableStarts]

/-- A run in which no chunk iteration can take the abort branch (either the
failure draw never fires, or `skipErrors` is set, which in this code
disables the failure simulation entirely): the run reaches the completion
block, each table contributes its 5000 mock rows in the configured order,
and no error is ever recorded. -/
theorem runMigration_clean (cfg : MigrationConfig) (t : ℚ) (env : RunEnv)
    (h : ∀ i r, env.failAt i r = false ∨ cfg.options.skipErrors = true) :
    (runMigration cfg t env).progress.status = "completed" ∧
    (runMigration cfg t env).progress.overallProgress = 100 ∧
    (runMigration cfg t env).progress.estimatedTimeRemaining = 0 ∧
    (runMigration cfg t env).progress.endTime = some env.endNow ∧
    (runMigration cfg t env).progress.processedTables =
      cfg.selectedTables.length ∧
    (runMigration cfg t env).progress.processedRows =
      5000 * cfg.selectedTables.length ∧
    (runMigration cfg t env).progress.totalRows =
      5000 * cfg.selectedTables.length ∧
    (runMigration cfg t env).progress.totalTables =
      cfg.selectedTables.length ∧
    (runMigration cfg t env).progress.errors = [] ∧
    (runMigration cfg t env).progress.startTime = t ∧
    (runMigration cfg t env).progress.migrationId = cfg.id ∧
    tableStarts (runMigration cfg t env).emitted =
      cfg.selectedTables.map (fun tb => tb.name) := by
  obtain ⟨hpr0, hpt0, htr0, htt0, herr0, hstart0, hend0, hct0, hctp0,
      hov0, heta0, hmid0, hstat0, hts0⟩ := startState_spec cfg t
  obtain ⟨st', heq, hpr, hpt, herr, hstat, htr, htt, hstart, hend, hmid,
      hnil, hpos, T, hem, hts⟩ :=
    runTables_clean cfg env cfg.selectedTables 0 (startState cfg t)
      (fun k _ j _ => h (0 + k) (100 * j))
  have hR : runMigration cfg t env =
      { progress := { st'.progress with
          status := "completed"
          endTime := some env.endNow
          overallProgress := 100
          estimatedTimeRemaining := 0 }
        emitted := st'.emitted ++ [{ st'.progress with
          status := "completed"
          endTime := some env.endNow
          overallProgress := 100
          estimatedTimeRemaining := 0 }] } := by
    rw [runMigration_as_match, heq]
  rw [hR]
  refine ⟨rfl, rfl, rfl, rfl, ?_, ?_, ?_, ?_, ?_, ?_, ?_, ?_⟩
  · show st'.progress.processedTables = _
    rw [hpt, hpt0]
    omega
  · show st'.progress.processedRows = _
    rw [hpr, hpr0]
    omega
  · show st'.progress.totalRows = _
    rw [htr, htr0]
  · show st'.progress.totalTables = _
    rw [htt, htt0]
  · show st'.progress.errors = _
    rw [herr, herr0]
  · show st'.progress.startTime = _
    rw [hstart, hstart0]
  · show st'.progress.migrationId = _
    rw [hmid, hmid0]
  · show tableStarts (st'.emitted ++ [_]) = _
    rw [tableStarts_append, hem, tableStarts_append, hts0, hts]
    rcases hLnil : cfg.selectedTables with _ | ⟨tb0, rest⟩
    · have hst' : st' = startState cfg t := by
        apply hnil
        rw [hLnil]
      rw [tableStarts_noTable _ (by
        show ({ st'.progress with
          status := "completed"
          endTime := some env.endNow
          overallProgress := 100
          estimatedTimeRemaining := 0 } : MigrationProgress).currentTable
            = none
        rw [show ({ st'.progress with
          status := "completed"
          endTime := some env.endNow
          overallProgress := 100
          estimatedTimeRemaining := 0 } : MigrationProgress).currentTable
            = st'.progress.currentTable from rfl, hst', hct0])]
      simp
    · have hne : cfg.selectedTables ≠ [] := by rw [hLnil]; simp
      obtain ⟨hctp', _⟩ := hpos hne
      rw [tableStarts_chunk _ (by
        show ({ st'.progress with
          status := "completed"
          endTime := some env.endNow
          overallProgress := 100
          estimatedTimeRemaining := 0 } : MigrationProgress).currentTableProgress ≠ 0
        rw [show ({ st'.progress with
          status := "completed"
          endTime := some env.endNow
          overallProgress := 100
          estimatedTimeRemaining := 0 } : MigrationProgress).currentTableProgress
            = st'.progress.currentTableProgress from rfl, hctp']
        norm_num)]
      simp

theorem mul100_mem_tableChunkRows (j : Nat) (h : j < 50) :
    100 * j ∈ tableChunkRows := by
  rw [tableChunkRows_eq]
  exact List.mem_map_of_mem _ (List.mem_range.mpr h)

theorem tableChunkRows_split (kf b : Nat) (hb : 50 = kf + (b + 1)) :
    tableChunkRows = ((List.range kf).map (fun j => 100 * j)) ++
      (100 * kf) :: ((List.range b).map (fun x => 100 * (kf + (x + 1)))) := by
  rw [tableChunkRows_eq, show (50 : Nat) = kf + (b + 1) from hb,
    List.range_add, List.map_append, List.range_succ_eq_map]
  simp [List.map_map, Function.comp_def, Nat.succ_eq_add_one]

theorem failSnapshot_errors (env : RunEnv) (i row : Nat)
    (tb : MigrationTable) (p : MigrationProgress) :
    (failSnapshot env i row tb p).errors =
      p.errors ++ [mkChunkError env i row tb] := rfl

theorem failSnapshot_status (env : RunEnv) (i row : Nat)
    (tb : MigrationTable) (p : MigrationProgress) :
    (failSnapshot env i row tb p).status = "failed" := rfl

theorem failSnapshot_endTime (env : RunEnv) (i row : Nat)
    (tb : MigrationTable) (p : MigrationProgress) :
    (failSnapshot env i row tb p).endTime = some (env.now i row) := rfl

theorem failSnapshot_processedRows (env : RunEnv) (i row : Nat)
    (tb : MigrationTable) (p : MigrationProgress) :
    (failSnapshot env i row tb p).processedRows = p.processedRows := rfl

theorem failSnapshot_processedTables (env : RunEnv) (i row : Nat)
    (tb : MigrationTable) (p : MigrationProgress) :
    (failSnapshot env i row tb p).processedTables = p.processedTables := rfl

theorem failSnapshot_currentTable (env : RunEnv) (i row : Nat)
    (tb : MigrationTable) (p : MigrationProgress) :
    (failSnapshot env i row tb p).currentTable = p.currentTable := rfl

theorem failSnapshot_ctp (env : RunEnv) (i row : Nat)
    (tb : MigrationTable) (p : MigrationProgress) :
    (failSnapshot env i row tb p).currentTableProgress =
      p.currentTableProgress := rfl

theorem failSnapshot_overall (env : RunEnv) (i row : Nat)
    (tb : MigrationTable) (p : MigrationProgress) :
    (failSnapshot env i row tb p).overallProgress = p.overallProgress := rfl

theorem failSnapshot_totalRows (env : RunEnv) (i row : Nat)
    (tb : MigrationTable) (p : MigrationProgress) :
    (failSnapshot env i row tb p).totalRows = p.totalRows := rfl

theorem failSnapshot_totalTables (env : RunEnv) (i row : Nat)
    (tb : MigrationTable) (p : MigrationProgress) :
    (failSnapshot env i row tb p).totalTables = p.totalTables := rfl

theorem failSnapshot_startTime (env : RunEnv) (i row : Nat)
    (tb : MigrationTable) (p : MigrationProgress) :
    (failSnapshot env i row tb p).startTime = p.startTime := rfl

theorem failSnapshot_migrationId (env : RunEnv) (i row : Nat)
    (tb : MigrationTable) (p : MigrationProgress) :
    (failSnapshot env i row tb p).migrationId = p.migrationId := rfl

theorem runTables_append (cfg : MigrationConfig) (env : RunEnv) :
    ∀ (L1 L2 : List MigrationTable) (i0 : Nat) (st : RunState),
    runTables cfg env i0 (L1 ++ L2) st =
      match runTables cfg env i0 L1 st with
      | Except.ok st1 => runTables cfg env (i0 + L1.length) L2 st1
      | Except.error e => Except.error e := by
  intro L1
  induction L1 with
  | nil =>
    intro L2 i0 st
    simp [runTables]
  | cons tb ts ih =>
    intro L2 i0 st
    show (processTable cfg env i0 tb st).bind
        (runTables cfg env (i0 + 1) (ts ++ L2)) = _
    cases hp : processTable cfg env i0 tb st with
    | error e =>
      rw [bind_error_eq]
      have : runTables cfg env i0 (tb :: ts) st = Except.error e := by
        show (processTable cfg env i0 tb st).bind
          (runTables cfg env (i0 + 1) ts) = _
        rw [hp, bind_error_eq]
      rw [this]
    | ok st1 =>
      rw [bind_ok_eq, ih]
      have : runTables cfg env i0 (tb :: ts) st = runTables cfg env
          (i0 + 1) ts st1 := by
        show (processTable cfg env i0 tb st).bind
          (runTables cfg env (i0 + 1) ts) = _
        rw [hp, bind_ok_eq]
      rw [this]
      cases runTables cfg env (i0 + 1) ts st1 with
      | error e => rfl
      | ok st2 =>
        have harith : i0 + 1 + ts.length = i0 + (ts.length + 1) := by omega
        rw [List.length_cons, harith]

/-- Processing table `i` when the first `kf` chunk iterations are clean
and the abort branch fires at row offset `100 * kf` (with `skipErrors`
unset): the table loop returns the failure state: counters as they stood
before the failing iteration, exactly one error appended, status
`failed`, `endTime` set, and the failure snapshot emitted last. -/
theorem processTable_fail (cfg : MigrationConfig) (env : RunEnv) (i : Nat)
    (tb : MigrationTable) (st : RunState) (kf : Nat) (hkf : kf < 50)
    (hskip : cfg.options.skipErrors = false)
    (hf : env.failAt i (100 * kf) = true)
    (hpre : ∀ j, j < kf → env.failAt i (100 * j) = false)
    (hInv : st.progress.overallProgress =
      (st.progress.processedRows : ℚ) / (st.progress.totalRows : ℚ) * 100) :
    ∃ stF, processTable cfg env i tb st = Except.error stF ∧
      stF.progress.processedRows =
        st.progress.processedRows + 100 * kf ∧
      stF.progress.processedTables = st.progress.processedTables ∧
      stF.progress.status = "failed" ∧
      stF.progress.endTime = some (env.now i (100 * kf)) ∧
      stF.progress.errors =
        st.progress.errors ++ [mkChunkError env i (100 * kf) tb] ∧
      stF.progress.currentTable = some tb.name ∧
      stF.progress.currentTableProgress =
        ((100 * kf : ℕ) : ℚ) / 5000 * 100 ∧
      stF.progress.overallProgress =
        ((st.progress.processedRows + 100 * kf : ℕ) : ℚ) /
          (st.progress.totalRows : ℚ) * 100 ∧
      stF.progress.totalRows = st.progress.totalRows ∧
      stF.progress.totalTables = st.progress.totalTables ∧
      stF.progress.startTime = st.progress.startTime ∧
      stF.progress.migrationId = st.progress.migrationId ∧
      stF.emitted.getLast? = some stF.progress := by
  obtain ⟨st1, heq, hpr, herr, hstat, hct, htr, htt, hpt, hstart, hend,
      hmid, hzero, hpos, S1, hem, hts⟩ :=
    chunkLoop_clean cfg env i tb kf (by omega)
      { progress := { st.progress with
          currentTable := some tb.name
          currentTableProgress := 0 }
        emitted := st.emitted ++ [{ st.progress with
          currentTable := some tb.name
          currentTableProgress := 0 }] }
      (fun j hj => Or.inl (hpre j hj))
  have hloop : chunkLoop cfg env i tb tableChunkRows
      { progress := { st.progress with
          currentTable := some tb.name
          currentTableProgress := 0 }
        emitted := st.emitted ++ [{ st.progress with
          currentTable := some tb.name
          currentTableProgress := 0 }] } =
      Except.error
        { progress := failSnapshot env i (100 * kf) tb st1.progress
          emitted := st1.emitted ++
            [failSnapshot env i (100 * kf) tb st1.progress] } := by
    rw [tableChunkRows_split kf (49 - kf) (by omega), chunkLoop_append,
      heq]
    show chunkLoop cfg env i tb ((100 * kf) :: _) st1 = _
    rw [chunkLoop_cons, chunkIter_fail cfg env i tb (100 * kf) st1 hf hskip]
  have heqP : processTable cfg env i tb st = Except.error
      { progress := failSnapshot env i (100 * kf) tb st1.progress
        emitted := st1.emitted ++
          [failSnapshot env i (100 * kf) tb st1.progress] } := by
    have h2 := congrArg (Except.map (fun s : RunState =>
      { s with progress := { s.progress with
          processedTables := s.progress.processedTables + 1 } })) hloop
    exact h2
  refine ⟨_, heqP, ?_, ?_, ?_, ?_, ?_, ?_, ?_, ?_, ?_, ?_, ?_, ?_, ?_⟩
  · rw [failSnapshot_processedRows, hpr]
  · rw [failSnapshot_processedTables, hpt]
  · rw [failSnapshot_status]
  · rw [failSnapshot_endTime]
  · rw [failSnapshot_errors, herr]
  · rw [failSnapshot_currentTable, hct]
  · rw [failSnapshot_ctp]
    rcases Nat.eq_zero_or_pos kf with hk0 | hkpos
    · subst hk0
      rw [hzero rfl]
      show (0 : ℚ) = ((100 * 0 : ℕ) : ℚ) / 5000 * 100
      norm_num
    · exact (hpos hkpos).1
  · rw [failSnapshot_overall]
    rcases Nat.eq_zero_or_pos kf with hk0 | hkpos
    · subst hk0
      have h1 : st1.progress.overallProgress = st.progress.overallProgress :=
        by rw [hzero rfl]
      rw [h1, hInv]
      norm_num
    · exact (hpos hkpos).2
  · rw [failSnapshot_totalRows, htr]
  · rw [failSnapshot_totalTables, htt]
  · rw [failSnapshot_startTime, hstart]
  · rw [failSnapshot_migrationId, hmid]
  · show (st1.emitted ++ [failSnapshot env i (100 * kf) tb
      st1.progress]).getLast? = _
    rw [List.getLast?_concat]

/-- A run with `skipErrors` unset whose first firing of the failure draw
(in processing order) is at table `i`, row offset `100 * kf`: the run
returns the abort snapshot — status `failed`, `endTime` set, exactly the
one error of the failing chunk, all counters as they stood before the
failing iteration, and the abort snapshot is the last emission (nothing
is processed afterwards). -/
theorem run_first_failure (cfg : MigrationConfig) (t : ℚ) (env : RunEnv)
    (hskip : cfg.options.skipErrors = false) (i kf : Nat)
    (hi : i < cfg.selectedTables.length) (hkf : kf < 50)
    (hf : env.failAt i (100 * kf) = true)
    (hprevT : ∀ j s, j < i → s ∈ tableChunkRows → env.failAt j s = false)
    (hpre : ∀ j, j < kf → env.failAt i (100 * j) = false) :
    (runMigration cfg t env).progress.status = "failed" ∧
    (runMigration cfg t env).progress.endTime =
      some (env.now i (100 * kf)) ∧
    (runMigration cfg t env).progress.errors =
      [mkChunkError env i (100 * kf) (cfg.selectedTables.get ⟨i, hi⟩)] ∧
    (runMigration cfg t env).progress.processedTables = i ∧
    (runMigration cfg t env).progress.processedRows =
      5000 * i + 100 * kf ∧
    (runMigration cfg t env).progress.currentTable =
      some (cfg.selectedTables.get ⟨i, hi⟩).name ∧
    (runMigration cfg t env).progress.currentTableProgress =
      ((100 * kf : ℕ) : ℚ) / 5000 * 100 ∧
    (runMigration cfg t env).progress.overallProgress =
      ((5000 * i + 100 * kf : ℕ) : ℚ) /
        ((5000 * cfg.selectedTables.length : ℕ) : ℚ) * 100 ∧
    (runMigration cfg t env).progress.totalRows =
      5000 * cfg.selectedTables.length ∧
    (runMigration cfg t env).emitted.getLast? =
      some (runMigration cfg t env).progress := by
  have hsplitL : cfg.selectedTables.take i ++
      cfg.selectedTables.get ⟨i, hi⟩ :: cfg.selectedTables.drop (i + 1) =
      cfg.selectedTables := by
    rw [List.get_eq_getElem, ← List.drop_eq_getElem_cons hi,
      List.take_append_drop]
  have hlenA : (cfg.selectedTables.take i).length = i := by
    rw [List.length_take]
    omega
  obtain ⟨hpr0, hpt0, htr0, htt0, herr0, hstart0, hend0, hct0, hctp0,
      hov0, heta0, hmid0, hstat0, hts0⟩ := startState_spec cfg t
  obtain ⟨stA, heqA, hprA, hptA, herrA, hstatA, htrA, httA, hstartA,
      hendA, hmidA, hnilA, hposA, TA, hemA, htsA⟩ :=
    runTables_clean cfg env (cfg.selectedTables.take i) 0
      (startState cfg t) (by
        intro k hk j hj
        rw [hlenA] at hk
        exact Or.inl (hprevT (0 + k) (100 * j) (by omega)
          (mul100_mem_tableChunkRows j hj)))
  have hInvA : stA.progress.overallProgress =
      (stA.progress.processedRows : ℚ) /
        (stA.progress.totalRows : ℚ) * 100 := by
    by_cases hA : cfg.selectedTables.take i = []
    · rw [hnilA hA, hov0, hpr0]
      norm_num
    · obtain ⟨_, hovA⟩ := hposA hA
      rw [hovA, hprA, htrA]
  obtain ⟨stF, heqF, hprF, hptF, hstatF, hendF, herrF, hctF, hctpF,
      hovF, htrF, httF, hstartF, hmidF, hlastF⟩ :=
    processTable_fail cfg env i (cfg.selectedTables.get ⟨i, hi⟩) stA kf
      hkf hskip hf hpre hInvA
  have hrunT : runTables cfg env 0 cfg.selectedTables (startState cfg t) =
      Except.error stF := by
    conv_lhs => rw [← hsplitL]
    rw [runTables_append, heqA]
    show runTables cfg env (0 + (cfg.selectedTables.take i).length)
      (cfg.selectedTables.get ⟨i, hi⟩ ::
        cfg.selectedTables.drop (i + 1)) stA = _
    rw [hlenA, Nat.zero_add]
    show (processTable cfg env i (cfg.selectedTables.get ⟨i, hi⟩)
      stA).bind (runTables cfg env (i + 1)
        (cfg.selectedTables.drop (i + 1))) = _
    rw [heqF, bind_error_eq]
  have hR : runMigration cfg t env = stF := by
    rw [runMigration_as_match, hrunT]
  rw [hR]
  refine ⟨hstatF, hendF, ?_, ?_, ?_, hctF, hctpF, ?_, ?_, hlastF⟩
  · rw [herrF, herrA, herr0]
    rfl
  · rw [hptF, hptA, hpt0, hlenA]
    omega
  · rw [hprF, hprA, hpr0, hlenA]
    omega
  · rw [hovF, hprA, hpr0, hlenA, htrA, htr0]
    norm_num
  · rw [htrF, htrA, htr0]

theorem chunkIter_statusInv (cfg : MigrationConfig) (env : RunEnv)
    (i : Nat) (tb : MigrationTable) (row : Nat) (st : RunState)
    (h : StatusInv st) : StatusInv (stateOf (chunkIter cfg env i tb row st)) := by
  obtain ⟨h1, h2⟩ := h
  by_cases hg : (env.failAt i row && !cfg.options.skipErrors) = true
  · have hsk : cfg.options.skipErrors = false := by
      rcases Bool.and_eq_true _ _ |>.mp hg with ⟨_, hb⟩
      simpa using hb
    have hff : env.failAt i row = true := by
      rcases Bool.and_eq_true _ _ |>.mp hg with ⟨ha, _⟩
      exact ha
    rw [chunkIter_fail cfg env i tb row st hff hsk]
    constructor
    · show "failed" ∈ migrationStatusValues
      simp [migrationStatusValues]
    · intro q hq
      rcases List.mem_append.mp hq with hq | hq
      · exact h2 q hq
      · rcases List.mem_singleton.mp hq with rfl
        show "failed" ∈ migrationStatusValues
        simp [migrationStatusValues]
  · have hg' : (env.failAt i row && !cfg.options.skipErrors) = false := by
      simpa using hg
    rw [chunkIter_ok cfg env i tb row st (by
      rcases Bool.and_eq_false_iff.mp hg' with ha | hb
      · exact Or.inl ha
      · right
        simpa using hb)]
    constructor
    · show (chunkUpdate env i row st.progress).status ∈ _
      rw [chunkUpdate_status]
      exact h1
    · intro q hq
      rcases List.mem_append.mp hq with hq | hq
      · exact h2 q hq
      · rcases List.mem_singleton.mp hq with rfl
        rw [chunkUpdate_status]
        exact h1

theorem chunkLoop_statusInv (cfg : MigrationConfig) (env : RunEnv)
    (i : Nat) (tb : MigrationTable) :
    ∀ (rows : List Nat) (st : RunState), StatusInv st →
    StatusInv (stateOf (chunkLoop cfg env i tb rows st)) := by
  intro rows
  induction rows with
  | nil => intro st h; exact h
  | cons a rows ih =>
    intro st h
    have hstep := chunkIter_statusInv cfg env i tb a st h
    rw [chunkLoop_cons]
    cases hc : chunkIter cfg env i tb a st with
    | error e =>
      rw [hc] at hstep
      exact hstep
    | ok st1 =>
      rw [hc] at hstep
      exact ih st1 hstep

theorem processTable_statusInv (cfg : MigrationConfig) (env : RunEnv)
    (i : Nat) (tb : MigrationTable) (st : RunState) (h : StatusInv st) :
    StatusInv (stateOf (processTable cfg env i tb st)) := by
  obtain ⟨h1, h2⟩ := h
  have hstart : StatusInv
      { progress := { st.progress with
          currentTable := some tb.name
          currentTableProgress := 0 }
        emitted := st.emitted ++ [{ st.progress with
          currentTable := some tb.name
          currentTableProgress := 0 }] } := by
    constructor
    · exact h1
    · intro q hq
      rcases List.mem_append.mp hq with hq | hq
      · exact h2 q hq
      · rcases List.mem_singleton.mp hq with rfl
        exact h1
  have hloop := chunkLoop_statusInv cfg env i tb tableChunkRows _ hstart
  show StatusInv (stateOf ((chunkLoop cfg env i tb tableChunkRows _).map _))
  cases hc : chunkLoop cfg env i tb tableChunkRows
      { progress := { st.progress with
          currentTable := some tb.name
          currentTableProgress := 0 }
        emitted := st.emitted ++ [{ st.progress with
          currentTable := some tb.name
          currentTableProgress := 0 }] } with
  | error e =>
    rw [hc] at hloop
    exact hloop
  | ok st1 =>
    rw [hc] at hloop
    exact ⟨hloop.1, hloop.2⟩

theorem runTables_statusInv (cfg : MigrationConfig) (env : RunEnv) :
    ∀ (L : List MigrationTable) (i0 : Nat) (st : RunState), StatusInv st →
    StatusInv (stateOf (runTables cfg env i0 L st)) := by
  intro L
  induction L with
  | nil => intro i0 st h; exact h
  | cons tb ts ih =>
    intro i0 st h
    have hstep := processTable_statusInv cfg env i0 tb st h
    show StatusInv (stateOf ((processTable cfg env i0 tb st).bind _))
    cases hc : processTable cfg env i0 tb st with
    | error e =>
      rw [hc] at hstep
      rw [bind_error_eq]
      exact hstep
    | ok st1 =>
      rw [hc] at hstep
      rw [bind_ok_eq]
      exact ih (i0 + 1) st1 hstep

theorem startState_statusInv (cfg : MigrationConfig) (t : ℚ) :
    StatusInv (startState cfg t) := by
  by_cases hv : cfg.options.validateBeforeMigration <;>
    constructor <;>
    simp [startState, initializeMigrationProgress, hv, StatusInv,
      migrationStatusValues]

theorem runMigration_statusInv (cfg : MigrationConfig) (t : ℚ)
    (env : RunEnv) : StatusInv (runMigration cfg t env) := by
  have hT := runTables_statusInv cfg env cfg.selectedTables 0
    (startState cfg t) (startState_statusInv cfg t)
  rw [runMigration_as_match]
  cases hc : runTables cfg env 0 cfg.selectedTables (startState cfg t) with
  | error st =>
    rw [hc] at hT
    exact hT
  | ok st =>
    rw [hc] at hT
    constructor
    · show "completed" ∈ migrationStatusValues
      simp [migrationStatusValues]
    · intro q hq
      rcases List.mem_append.mp hq with hq | hq
      · exact hT.2 q hq
      · rcases List.mem_singleton.mp hq with rfl
        show "completed" ∈ migrationStatusValues
        simp [migrationStatusValues]

/-- C1.  When the failure draw never fires, `runMigration` processes every
unit of `config.selectedTables` in the order the units were given (the
table-start snapshots of the emission trace name the tables in
configuration order), and the final progress has
`processedTables = selectedTables.length` with every table's (mock 5000)
rows counted in `processedRows`, which equals `totalRows`. -/
theorem c1_every_table_in_order (cfg : MigrationConfig) (t : ℚ)
    (env : RunEnv) (h : ∀ i r, env.failAt i r = false) :
    tableStarts (runMigration cfg t env).emitted =
      cfg.selectedTables.map (fun tb => tb.name) ∧
    (runMigration cfg t env).progress.processedTables =
      cfg.selectedTables.length ∧
    (runMigration cfg t env).progress.processedRows =
      5000 * cfg.selectedTables.length ∧
    (runMigration cfg t env).progress.processedRows =
      (runMigration cfg t env).progress.totalRows := by
  obtain ⟨_, _, _, _, h5, h6, h7, _, _, _, _, h12⟩ :=
    runMigration_clean cfg t env (fun i r => Or.inl (h i r))
  exact ⟨h12, h5, h6, by rw [h6, h7]⟩

/-- Witness for C1 at a concrete two-table configuration and a
never-failing oracle: both tables are started in order and the final
ledger counts 2 tables and all 10000 mock rows. -/
theorem c1_every_table_in_order_witness :
    tableStarts (runMigration exConfig2 0 exEnvNoFail).emitted =
      ["t1", "t2"] ∧
    (runMigration exConfig2 0 exEnvNoFail).progress.processedTables = 2 ∧
    (runMigration exConfig2 0 exEnvNoFail).progress.processedRows =
      10000 ∧
    (runMigration exConfig2 0 exEnvNoFail).progress.processedRows =
      (runMigration exConfig2 0 exEnvNoFail).progress.totalRows :=
  c1_every_table_in_order exConfig2 0 exEnvNoFail (fun _ _ => rfl)

/-- C2 (code-bug evidence).  The source guards the failure simulation with
`Math.random() < 0.05 && !config.options.skipErrors` (part_007 line 119),
so with `skipErrors = true` no row/chunk failure can ever occur: for every
oracle — even one whose failure draw fires at every single chunk — the
run records no `MigrationError`, skips nothing, counts every row and
completes.  The record-and-skip path the spec describes (error pushed,
then the inner `if (!config.options.skipErrors)` not taken) is dead
code. -/
theorem c2_skipErrors_run_never_records (cfg : MigrationConfig) (t : ℚ)
    (env : RunEnv) (h : cfg.options.skipErrors = true) :
    (runMigration cfg t env).progress.errors = [] ∧
    (runMigration cfg t env).progress.status = "completed" ∧
    (runMigration cfg t env).progress.processedRows =
      5000 * cfg.selectedTables.length := by
  obtain ⟨h1, _, _, _, _, h6, _, _, h9, _, _, _⟩ :=
    runMigration_clean cfg t env (fun _ _ => Or.inr h)
  exact ⟨h9, h1, h6⟩

/-- Witness for C2: a `skipErrors = true` configuration run against an
oracle whose failure draw fires on every chunk still yields an empty
error list, a completed status, and all 5000 rows counted. -/
theorem c2_skipErrors_run_never_records_witness :
    (runMigration exConfigSkip 0 exEnvAllFail).progress.errors = [] ∧
    (runMigration exConfigSkip 0 exEnvAllFail).progress.status =
      "completed" ∧
    (runMigration exConfigSkip 0 exEnvAllFail).progress.processedRows =
      5000 :=
  c2_skipErrors_run_never_records exConfigSkip 0 exEnvAllFail rfl

/-- C5.  A run that exhausts all units without a fatal abort (no chunk
iteration can take the abort branch) ends with `status = completed`,
`overallProgress = 100`, `estimatedTimeRemaining = 0` and `endTime` set;
and with `skipErrors = false` and no injected failures additionally
`processedRows = totalRows` and an empty error list. -/
theorem c5_exhaustion_completes (cfg : MigrationConfig) (t : ℚ)
    (env : RunEnv)
    (h : ∀ i r, env.failAt i r = false ∨ cfg.options.skipErrors = true) :
    (runMigration cfg t env).progress.status = "completed" ∧
    (runMigration cfg t env).progress.overallProgress = 100 ∧
    (runMigration cfg t env).progress.estimatedTimeRemaining = 0 ∧
    (runMigration cfg t env).progress.endTime = some env.endNow ∧
    (cfg.options.skipErrors = false → (∀ i r, env.failAt i r = false) →
      (runMigration cfg t env).progress.processedRows =
        (runMigration cfg t env).progress.totalRows ∧
      (runMigration cfg t env).progress.errors = []) := by
  obtain ⟨h1, h2, h3, h4, _, h6, h7, _, h9, _, _, _⟩ :=
    runMigration_clean cfg t env h
  exact ⟨h1, h2, h3, h4, fun _ _ => ⟨by rw [h6, h7], h9⟩⟩

/-- Witness for C5 at the concrete two-table `skipErrors = false`
configuration with a never-failing oracle. -/
theorem c5_exhaustion_completes_witness :
    (runMigration exConfig2 0 exEnvNoFail).progress.status =
      "completed" ∧
    (runMigration exConfig2 0 exEnvNoFail).progress.overallProgress =
      100 ∧
    (runMigration exConfig2 0 exEnvNoFail).progress.estimatedTimeRemaining
      = 0 ∧
    (runMigration exConfig2 0 exEnvNoFail).progress.endTime = some 0 ∧
    (runMigration exConfig2 0 exEnvNoFail).progress.processedRows =
      (runMigration exConfig2 0 exEnvNoFail).progress.totalRows ∧
    (runMigration exConfig2 0 exEnvNoFail).progress.errors = [] := by
  obtain ⟨h1, h2, h3, h4, h5⟩ :=
    c5_exhaustion_completes exConfig2 0 exEnvNoFail
      (fun _ _ => Or.inl rfl)
  obtain ⟨h6, h7⟩ := h5 rfl (fun _ _ => rfl)
  exact ⟨h1, h2, h3, h4, h6, h7⟩

/-- C6 amended.  For the `createMigrationTables` of
src/src/utils/migrationUtils.ts (and part_007): the output lists exactly
the tables with `selected = true`, in input order; each unit's
`selectedColumns` are exactly the names of that table's selected columns
in order; each unit's `destinationTable` equals the source table's name
(and the schema is carried over).  The part_006 variant violates the
destination clause — see the counterexample. -/
theorem c6_projection_builder (tables : List DatabaseTable) :
    ((createMigrationTables tables).map (fun u => u.name) =
      (tables.filter (fun tb => tb.selected)).map (fun tb => tb.name)) ∧
    (∀ u ∈ createMigrationTables tables, u.destinationTable = u.name) ∧
    (∀ k, (hk : k < (createMigrationTables tables).length) →
      (hk2 : k < (tables.filter (fun tb => tb.selected)).length) →
      ((createMigrationTables tables).get ⟨k, hk⟩).selectedColumns =
        ((((tables.filter (fun tb => tb.selected)).get
          ⟨k, hk2⟩).columns.filter (fun c => c.selected)).map
            (fun c => c.name)) ∧
      ((createMigrationTables tables).get ⟨k, hk⟩).schema =
        ((tables.filter (fun tb => tb.selected)).get ⟨k, hk2⟩).schema ∧
      ((createMigrationTables tables).get ⟨k, hk⟩).name =
        ((tables.filter (fun tb => tb.selected)).get ⟨k, hk2⟩).name) := by
  refine ⟨?_, ?_, ?_⟩
  · rw [createMigrationTables, List.map_map]
    rfl
  · intro u hu
    rcases List.mem_map.mp hu with ⟨tb, _, rfl⟩
    rfl
  · intro k hk hk2
    refine ⟨?_, ?_, ?_⟩ <;>
      simp [createMigrationTables, List.get_eq_getElem, List.getElem_map]

/-- Witness for C6's amended theorem at a concrete pair of tables (one
selected with columns `a`, `c` selected, one unselected). -/
theorem c6_projection_builder_witness :
    ((createMigrationTables [exDbTable1, exDbTable2]).map
      (fun u => u.name) =
      (([exDbTable1, exDbTable2].filter (fun tb => tb.selected)).map
        (fun tb => tb.name))) ∧
    ((createMigrationTables [exDbTable1, exDbTable2]).get
      ⟨0, by decide⟩).selectedColumns = ["a", "c"] := by
  obtain ⟨h1, _, h3⟩ := c6_projection_builder [exDbTable1, exDbTable2]
  exact ⟨h1, (h3 0 (by decide) (by decide)).1⟩

/-- C6 counterexample.  The part_006 variant of `createMigrationTables`
does not set `destinationTable` to the source table's name: on a selected
table named `t1` it produces destination `t1_migrated`. -/
theorem c6_destination_counterexample :
    (createMigrationTables_v006 [exDbTable1]).map
      (fun u => u.destinationTable) = ["t1_migrated"] ∧
    (createMigrationTables_v006 [exDbTable1]).map (fun u => u.name) =
      ["t1"] ∧
    "t1_migrated" ≠ "t1" := by
  refine ⟨rfl, rfl, by decide⟩

/-- C7 amended.  `createMigrationConfig` performs no validation at all:
for any table list — including the empty one — it returns a plain
`MigrationConfig` carrying exactly that list, status `draft`, and the
documented option defaults.  There is no rejection path in the source. -/
theorem c7_no_empty_rejection (id name src dst : String)
    (tables : List MigrationTable) (createdAt : ℚ)
    (opts : MigrationOptionsOverride) :
    (createMigrationConfig id name src dst tables createdAt
      opts).selectedTables = tables ∧
    (createMigrationConfig id name src dst tables createdAt opts).status =
      "draft" ∧
    (createMigrationConfig id name src dst tables createdAt
      opts).options.batchSize = opts.batchSize.getD 1000 ∧
    (createMigrationConfig id name src dst tables createdAt
      opts).options.skipErrors = opts.skipErrors.getD false ∧
    (createMigrationConfig id name src dst tables createdAt
      opts).options.validateBeforeMigration =
      opts.validateBeforeMigration.getD true ∧
    (createMigrationConfig id name src dst tables createdAt
      opts).options.truncateBeforeInsert =
      opts.truncateBeforeInsert.getD false :=
  ⟨rfl, rfl, rfl, rfl, rfl, rfl⟩

/-- C7 counterexample.  For `selectedTables = []` the factory does not
fail or report an error: it returns a usable `MigrationConfig` with zero
units, status `draft` and the default options. -/
theorem c7_empty_accepted_counterexample :
    (createMigrationConfig "id0" "m" "src" "dst" [] 0 {}).selectedTables =
      [] ∧
    (createMigrationConfig "id0" "m" "src" "dst" [] 0 {}).status =
      "draft" ∧
    (createMigrationConfig "id0" "m" "src" "dst" [] 0
      {}).options.batchSize = 1000 :=
  ⟨rfl, rfl, rfl⟩

theorem chunkIter_ignores_batchSize (cfg : MigrationConfig) (b : Nat) :
    chunkIter { cfg with options := { cfg.options with batchSize := b } } =
      chunkIter cfg := rfl

theorem chunkLoop_ignores_batchSize (cfg : MigrationConfig) (b : Nat) :
    chunkLoop { cfg with options := { cfg.options with batchSize := b } } =
      chunkLoop cfg := by
  funext env i tb rows st
  unfold chunkLoop
  simp only [chunkIter_ignores_batchSize]

theorem processTable_ignores_batchSize (cfg : MigrationConfig) (b : Nat) :
    processTable
      { cfg with options := { cfg.options with batchSize := b } } =
      processTable cfg := by
  funext env i tb st
  unfold processTable
  rw [chunkLoop_ignores_batchSize]

theorem runTables_ignores_batchSize (cfg : MigrationConfig)
    (env : RunEnv) (b : Nat) : ∀ (L : List MigrationTable) (i0 : Nat)
    (st : RunState),
    runTables { cfg with options := { cfg.options with batchSize := b } }
      env i0 L st = runTables cfg env i0 L st := by
  intro L
  induction L with
  | nil => intro i0 st; rfl
  | cons tb ts ih =>
    intro i0 st
    show (processTable { cfg with options :=
        { cfg.options with batchSize := b } } env i0 tb st).bind _ =
      (processTable cfg env i0 tb st).bind _
    rw [processTable_ignores_batchSize]
    congr 1
    funext s
    exact ih (i0 + 1) s

/-- C3 amended.  The inner loop of `runMigration` advances by the literal
constant 100 rows per iteration (part_007 line 115 and line 139), not by
`options.batchSize`: the run is completely invariant under changes to
`batchSize`, and each chunk update adds exactly 100 to `processedRows`
whatever the configuration. -/
theorem c3_chunks_are_fixed_100 :
    (∀ (cfg : MigrationConfig) (t : ℚ) (env : RunEnv) (b : Nat),
      runMigration
        { cfg with options := { cfg.options with batchSize := b } } t env
        = runMigration cfg t env) ∧
    (∀ (env : RunEnv) (i row : Nat) (p : MigrationProgress),
      (chunkUpdate env i row p).processedRows = p.processedRows + 100) := by
  constructor
  · intro cfg t env b
    rw [runMigration_as_match, runMigration_as_match]
    have hss : startState
        { cfg with options := { cfg.options with batchSize := b } } t =
        startState cfg t := rfl
    have hsel : ({ cfg with options :=
        { cfg.options with batchSize := b } } :
        MigrationConfig).selectedTables = cfg.selectedTables := rfl
    rw [hss, hsel, runTables_ignores_batchSize]
  · intro env i row p
    rfl

/-- C3 counterexample.  With `batchSize = 250` the first chunk iteration
still handles 100 rows (the first chunk snapshot shows
`processedRows = 100`), so the per-iteration row count does not equal the
configured batch size. -/
theorem c3_batchSize_counterexample :
    exConfigB250.options.batchSize = 250 ∧
    ((runMigration exConfigB250 0 exEnvNoFail).emitted.get? 2).map
      (fun p => p.processedRows) = some 100 ∧
    (100 : Nat) ≠ 250 := by
  refine ⟨rfl, rfl, by decide⟩

/-- C8 amended.  At every point of every run the status field (and the
status of every emitted snapshot) is one of the seven members of the
`MigrationStatus` union actually declared at src/src/types/migration.ts
lines 27-34: draft, validating, pending, in_progress, completed, failed,
canceled.  The spec's claimed values `extracting` and `importing` are not
among them, and the runtime statuses `pending`/`in_progress` are not
among the spec's seven — see the counterexample. -/
theorem c8_status_in_union (cfg : MigrationConfig) (t : ℚ)
    (env : RunEnv) :
    (runMigration cfg t env).progress.status ∈ migrationStatusValues ∧
    ∀ q ∈ (runMigration cfg t env).emitted,
      q.status ∈ migrationStatusValues :=
  runMigration_statusInv cfg t env

/-- Witness for C8's amended theorem: a concrete run's final progress is
one of its own emissions and its status is in the declared union. -/
theorem c8_status_in_union_witness :
    (runMigration exConfigEmpty 0 exEnvNoFail).progress ∈
      (runMigration exConfigEmpty 0 exEnvNoFail).emitted ∧
    (runMigration exConfigEmpty 0 exEnvNoFail).progress.status ∈
      migrationStatusValues :=
  ⟨by decide,
    (c8_status_in_union exConfigEmpty 0 exEnvNoFail).2 _ (by decide)⟩

/-- C8 counterexample.  During a run the status field holds
`"in_progress"` (the very first emitted snapshot), which is none of the
seven values the claim lists (draft, validating, extracting, importing,
completed, failed, canceled). -/
theorem c8_in_progress_counterexample :
    ((runMigration exConfigSkip 0 exEnvNoFail).emitted.get? 0).map
      (fun p => p.status) = some "in_progress" ∧
    ("in_progress" : String) ∉
      ["draft", "validating", "extracting", "importing", "completed",
       "failed", "canceled"] :=
  ⟨rfl, by decide⟩

/-- C9.  After each chunk the engine recomputes the estimate exactly by
the spec's formula: with `elapsedSeconds = now − startTime` and
`percentComplete = processedRows / totalRows` (the just-updated row
count), if `percentComplete > 0` then `estimatedTimeRemaining =
max 0 (elapsedSeconds / percentComplete − elapsedSeconds)`, otherwise the
previous estimate is carried forward. -/
theorem c9_eta_formula (env : RunEnv) (i row : Nat)
    (p : MigrationProgress) :
    (0 < ((p.processedRows + 100 : ℕ) : ℚ) / (p.totalRows : ℚ) →
      (chunkUpdate env i row p).estimatedTimeRemaining =
        max 0 ((env.now i row - p.startTime) /
          (((p.processedRows + 100 : ℕ) : ℚ) / (p.totalRows : ℚ)) -
          (env.now i row - p.startTime))) ∧
    (¬ 0 < ((p.processedRows + 100 : ℕ) : ℚ) / (p.totalRows : ℚ) →
      (chunkUpdate env i row p).estimatedTimeRemaining =
        p.estimatedTimeRemaining) := by
  constructor <;> intro h
  · show (if 0 < ((p.processedRows + 100 : ℕ) : ℚ) / (p.totalRows : ℚ)
        then max 0 ((env.now i row - p.startTime) /
          (((p.processedRows + 100 : ℕ) : ℚ) / (p.totalRows : ℚ)) -
          (env.now i row - p.startTime))
        else p.estimatedTimeRemaining) = _
    rw [if_pos h]
  · show (if 0 < ((p.processedRows + 100 : ℕ) : ℚ) / (p.totalRows : ℚ)
        then max 0 ((env.now i row - p.startTime) /
          (((p.processedRows + 100 : ℕ) : ℚ) / (p.totalRows : ℚ)) -
          (env.now i row - p.startTime))
        else p.estimatedTimeRemaining) = _
    rw [if_neg h]

/-- Witness for C9 on a concrete ledger (100 of 5000 rows after the
update, clock 7, start time 2): the positive-progress branch applies. -/
theorem c9_eta_formula_witness :
    (0 < ((exProgress9.processedRows + 100 : ℕ) : ℚ) /
      (exProgress9.totalRows : ℚ)) ∧
    (chunkUpdate exEnv9 0 0 exProgress9).estimatedTimeRemaining =
      max 0 ((exEnv9.now 0 0 - exProgress9.startTime) /
        (((exProgress9.processedRows + 100 : ℕ) : ℚ) /
          (exProgress9.totalRows : ℚ)) -
        (exEnv9.now 0 0 - exProgress9.startTime)) :=
  ⟨by norm_num [exProgress9],
    (c9_eta_formula exEnv9 0 0 exProgress9).1 (by norm_num [exProgress9])⟩

/-- C4.  With `skipErrors = false`, the first row/chunk failure (table
`i`, row offset `r`, nothing failing before it in processing order) moves
the status to `failed`, sets `endTime`, stops processing immediately —
`processedTables` stays at `i`, `processedRows` counts only the rows
before the failing chunk, and the failure snapshot is the last emission —
and the final progress carries exactly the one error describing the
cause. -/
theorem c4_first_failure_aborts (cfg : MigrationConfig) (t : ℚ)
    (env : RunEnv) (hskip : cfg.options.skipErrors = false) (i r : Nat)
    (hi : i < cfg.selectedTables.length) (hr : r ∈ tableChunkRows)
    (hf : env.failAt i r = true)
    (hprevT : ∀ j s, j < i → s ∈ tableChunkRows → env.failAt j s = false)
    (hpre : ∀ s ∈ tableChunkRows, s < r → env.failAt i s = false) :
    (runMigration cfg t env).progress.status = "failed" ∧
    (runMigration cfg t env).progress.endTime = some (env.now i r) ∧
    (runMigration cfg t env).progress.errors =
      [mkChunkError env i r (cfg.selectedTables.get ⟨i, hi⟩)] ∧
    (runMigration cfg t env).progress.processedTables = i ∧
    (runMigration cfg t env).progress.processedRows = 5000 * i + r ∧
    (runMigration cfg t env).emitted.getLast? =
      some (runMigration cfg t env).progress := by
  obtain ⟨kf, hkf, rfl⟩ : ∃ kf, kf < 50 ∧ r = 100 * kf := by
    rw [tableChunkRows_eq] at hr
    rcases List.mem_map.mp hr with ⟨j, hj, rfl⟩
    exact ⟨j, List.mem_range.mp hj, rfl⟩
  have hpre' : ∀ j, j < kf → env.failAt i (100 * j) = false := fun j hj =>
    hpre (100 * j) (mul100_mem_tableChunkRows j (by omega)) (by omega)
  obtain ⟨h1, h2, h3, h4, h5, _, _, _, _, h10⟩ :=
    run_first_failure cfg t env hskip i kf hi hkf hf hprevT hpre'
  exact ⟨h1, h2, h3, h4, h5, h10⟩

/-- Witness for C4: two tables, failure draw firing first at table 1, row
200.  Table 1 of the run is the second table (`t2`): the run fails there,
keeps only table 0's 5000 rows plus the 200 rows before the failing
chunk, and the abort snapshot is the last emission. -/
theorem c4_first_failure_aborts_witness :
    (runMigration exConfig2 0 exEnvFail).progress.status = "failed" ∧
    (runMigration exConfig2 0 exEnvFail).progress.endTime = some 7 ∧
    (runMigration exConfig2 0 exEnvFail).progress.errors =
      [mkChunkError exEnvFail 1 200 (exTable "t2")] ∧
    (runMigration exConfig2 0 exEnvFail).progress.processedTables = 1 ∧
    (runMigration exConfig2 0 exEnvFail).progress.processedRows = 5200 ∧
    (runMigration exConfig2 0 exEnvFail).emitted.getLast? =
      some (runMigration exConfig2 0 exEnvFail).progress :=
  c4_first_failure_aborts exConfig2 0 exEnvFail rfl 1 200 (by decide)
    (by decide) rfl
    (by
      intro j s hj _
      obtain rfl : j = 0 := by omega
      rfl)
    (by decide)

/-- C10.  When a chunk iteration fails and the run aborts
(`skipErrors = false`, first failure at table `i`, row offset `r`), the
rows of the failing chunk are not counted: the final failed snapshot
carries exactly the pre-iteration values `processedRows = 5000 * i + r`,
`processedTables = i`, `currentTableProgress = r / 5000 * 100`,
`overallProgress = (5000 * i + r) / totalRows * 100`, with exactly one
error appended; and locally, the abort branch of the failing iteration
leaves all four counters of the incoming state untouched while appending
exactly one error. -/
theorem c10_failing_chunk_not_counted (cfg : MigrationConfig) (t : ℚ)
    (env : RunEnv) (hskip : cfg.options.skipErrors = false) (i r : Nat)
    (hi : i < cfg.selectedTables.length) (hr : r ∈ tableChunkRows)
    (hf : env.failAt i r = true)
    (hprevT : ∀ j s, j < i → s ∈ tableChunkRows → env.failAt j s = false)
    (hpre : ∀ s ∈ tableChunkRows, s < r → env.failAt i s = false) :
    (runMigration cfg t env).progress.processedRows = 5000 * i + r ∧
    (runMigration cfg t env).progress.processedTables = i ∧
    (runMigration cfg t env).progress.currentTableProgress =
      ((r : ℕ) : ℚ) / 5000 * 100 ∧
    (runMigration cfg t env).progress.overallProgress =
      ((5000 * i + r : ℕ) : ℚ) /
        ((5000 * cfg.selectedTables.length : ℕ) : ℚ) * 100 ∧
    (runMigration cfg t env).progress.errors =
      [mkChunkError env i r (cfg.selectedTables.get ⟨i, hi⟩)] ∧
    (∀ (tb : MigrationTable) (st : RunState),
      chunkIter cfg env i tb r st = Except.error
        { progress := failSnapshot env i r tb st.progress
          emitted := st.emitted ++ [failSnapshot env i r tb st.progress] } ∧
      (failSnapshot env i r tb st.progress).processedRows =
        st.progress.processedRows ∧
      (failSnapshot env i r tb st.progress).processedTables =
        st.progress.processedTables ∧
      (failSnapshot env i r tb st.progress).currentTableProgress =
        st.progress.currentTableProgress ∧
      (failSnapshot env i r tb st.progress).overallProgress =
        st.progress.overallProgress ∧
      (failSnapshot env i r tb st.progress).errors =
        st.progress.errors ++ [mkChunkError env i r tb]) := by
  obtain ⟨kf, hkf, rfl⟩ : ∃ kf, kf < 50 ∧ r = 100 * kf := by
    rw [tableChunkRows_eq] at hr
    rcases List.mem_map.mp hr with ⟨j, hj, rfl⟩
    exact ⟨j, List.mem_range.mp hj, rfl⟩
  have hpre' : ∀ j, j < kf → env.failAt i (100 * j) = false := fun j hj =>
    hpre (100 * j) (mul100_mem_tableChunkRows j (by omega)) (by omega)
  obtain ⟨_, _, h3, h4, h5, _, h7, h8, _, _⟩ :=
    run_first_failure cfg t env hskip i kf hi hkf hf hprevT hpre'
  exact ⟨h5, h4, h7, h8, h3, fun tb st =>
    ⟨chunkIter_fail cfg env i tb (100 * kf) st hf hskip, rfl, rfl, rfl,
      rfl, rfl⟩⟩

/-- Witness for C10: two tables, failure draw firing first at table 0,
row 300 — the failed snapshot keeps the 300 rows of the three clean
chunks, zero processed tables, the pre-iteration progress percentages,
and one error; and the local abort step preserves a concrete incoming
ledger's counters. -/
theorem c10_failing_chunk_not_counted_witness :
    (runMigration exConfig2 0 exEnvFail0).progress.processedRows = 300 ∧
    (runMigration exConfig2 0 exEnvFail0).progress.processedTables = 0 ∧
    (runMigration exConfig2 0 exEnvFail0).progress.currentTableProgress =
      ((300 : ℕ) : ℚ) / 5000 * 100 ∧
    (runMigration exConfig2 0 exEnvFail0).progress.overallProgress =
      ((300 : ℕ) : ℚ) / ((10000 : ℕ) : ℚ) * 100 ∧
    (runMigration exConfig2 0 exEnvFail0).progress.errors =
      [mkChunkError exEnvFail0 0 300 (exTable "t1")] ∧
    (failSnapshot exEnvFail0 0 300 (exTable "t1")
      exProgress9).processedRows = exProgress9.processedRows := by
  obtain ⟨h1, h2, h3, h4, h5, h6⟩ :=
    c10_failing_chunk_not_counted exConfig2 0 exEnvFail0 rfl 0 300
      (by decide) (by decide) rfl
      (fun j s hj _ => absurd hj (Nat.not_lt_zero j))
      (by decide)
  exact ⟨h1, h2, h3, h4, h5,
    (h6 (exTable "t1") { progress := exProgress9, emitted := [] }).2.1⟩

end DMBridge
